import Mathlib

set_option maxHeartbeats 1000000

/-!
Verification of the ROCm stream-executor driver wrapper header
(`tensorflow/stream_executor/rocm/rocm_driver.h`) and the GPU
unsorted-segment-sum kernel (`segment_reduction_ops_gpu.cu.cc` excerpt)
against their natural-language specification.
-/

namespace TensorflowRocm

/-! ### Shallow embedding of `UnsortedSegmentSumCustomKernel`

The CUDA kernel loops `input_index` over `[0, input_outer_dim_size *
inner_dim_size)` (the grid-stride loop covers every index exactly once),
computes `input_segment_index = input_index / inner_dim_size`,
`segment_offset = input_index % inner_dim_size`, reads
`output_segment_index = segment_ids[input_segment_index]`, skips the
element when that id is negative or `>= output_outer_dim_size *
inner_dim_size`, and otherwise atomically adds
`input[input_index]` into `output[output_segment_index * inner_dim_size +
segment_offset]`.  Atomic adds on a commutative monoid commute, so the
kernel is modelled as a sequential fold over the input indices.
Indices are `Nat`; segment ids are `Int` since `Index` is `int32`/`int64`
and ids may be negative. -/

/-- One iteration of the kernel body at `inputIndex`, updating the output
buffer (modelled as `Nat → Int`). -/
def UnsortedSegmentSumCustomKernelStep (innerDimSize outputOuterDimSize : Nat)
    (segmentIds : Nat → Int) (input : Nat → Int) (output : Nat → Int)
    (inputIndex : Nat) : Nat → Int :=
  let inputSegmentIndex := inputIndex / innerDimSize
  let segmentOffset := inputIndex % innerDimSize
  let outputSegmentIndex := segmentIds inputSegmentIndex
  let outputTotalSize : Int := (outputOuterDimSize * innerDimSize : Nat)
  if outputSegmentIndex < 0 ∨ outputTotalSize ≤ outputSegmentIndex then
    output
  else
    fun k =>
      if k = outputSegmentIndex.toNat * innerDimSize + segmentOffset then
        output k + input inputIndex
      else output k

/-- The output cell (if any) that the kernel body writes at `inputIndex`:
`none` when the segment id is out of the kernel's guard range. -/
def writeTarget (innerDimSize outputOuterDimSize : Nat)
    (segmentIds : Nat → Int) (inputIndex : Nat) : Option Nat :=
  let outputSegmentIndex := segmentIds (inputIndex / innerDimSize)
  let outputTotalSize : Int := (outputOuterDimSize * innerDimSize : Nat)
  if outputSegmentIndex < 0 ∨ outputTotalSize ≤ outputSegmentIndex then
    none
  else
    some (outputSegmentIndex.toNat * innerDimSize + inputIndex % innerDimSize)

/-- The whole kernel: fold of the body over all
`input_outer_dim_size * inner_dim_size` input indices. -/
def UnsortedSegmentSumCustomKernel (inputOuterDimSize innerDimSize
    outputOuterDimSize : Nat) (segmentIds : Nat → Int) (input : Nat → Int)
    (output : Nat → Int) : Nat → Int :=
  (List.range (inputOuterDimSize * innerDimSize)).foldl
    (UnsortedSegmentSumCustomKernelStep innerDimSize outputOuterDimSize
      segmentIds input) output

/-- The `SetZero` kernel: zeroes the first `n` output elements. -/
def SetZero (n : Nat) (output : Nat → Int) : Nat → Int :=
  fun k => if k < n then 0 else output k

/-- Shallow embedding of `UnsortedSegmentSumFunctor<GPUDevice, T,
Index>::operator()`: returns immediately when `output.size() == 0`;
otherwise zeroes the output, returns if `data_size == 0` or
`segment_ids` has no elements, and otherwise launches the kernel with
`input_outer_dim_size = segment_ids.dimension(0)` and
`input_inner_dim_size = data_size / input_outer_dim_size`. -/
def UnsortedSegmentSumFunctor (outputRows : Nat)
    (segmentIdsNumElements : Nat) (segmentIds : Nat → Int)
    (dataSize : Nat) (data : Nat → Int)
    (outputSize : Nat) (output : Nat → Int) : Nat → Int :=
  if outputSize = 0 then output
  else
    let zeroed := SetZero outputSize output
    if dataSize = 0 ∨ segmentIdsNumElements = 0 then zeroed
    else
      let inputTotalSize := dataSize
      let inputOuterDimSize := segmentIdsNumElements
      let inputInnerDimSize := inputTotalSize / inputOuterDimSize
      UnsortedSegmentSumCustomKernel inputOuterDimSize inputInnerDimSize
        outputRows segmentIds data zeroed

/-! ### The public API surface of `ROCMDriver` (from the header)

Each static member function of `class ROCMDriver` is one constructor, and
`returnKind` records the C++ return type of its declaration, classified as
`port::Status`, `port::StatusOr<...>`, `bool`, a raw pointer
(`void*`), `void`, or a plain non-status value (`int`, `string`,
`hipCtx_t`). -/

/-- Classification of the C++ return type of a `ROCMDriver` member. -/
inductive ReturnKind
  | status
  | statusOr
  | boolean
  | rawPointer
  | voidReturn
  | plainValue
deriving DecidableEq, Repr

/-- The public static member functions declared in `class ROCMDriver`. -/
inductive DriverOp
  | init
  | deviceFromContext
  | createStream
  | destroyStream
  | createEvent
  | destroyEvent
  | deviceAllocate
  | deviceDeallocate
  | hostAllocate
  | hostDeallocate
  | hostRegister
  | hostUnregister
  | getDevice
  | getDeviceName
  | createContext
  | destroyContext
  | funcGetAttribute
  | funcSetCacheConfig
  | contextGetSharedMemConfig
  | contextSetSharedMemConfig
  | launchKernel
  | loadPtx
  | loadCubin
  | getModuleFunction
  | getModuleSymbol
  | unloadModule
  | synchronousMemsetUint8
  | synchronousMemsetUint32
  | asynchronousMemsetUint8
  | asynchronousMemsetUint32
  | synchronousMemcpyD2H
  | synchronousMemcpyH2D
  | synchronousMemcpyD2D
  | asynchronousMemcpyD2H
  | asynchronousMemcpyH2D
  | asynchronousMemcpyD2D
  | addStreamCallback
  | waitStreamOnEvent
  | synchronizeStream
  | synchronizeContext
  | isStreamIdle
  | canEnablePeerAccess
  | enablePeerAccess
  | getEventElapsedTime
  | recordEvent
  | queryEvent
  | getPointerContext
  | getPointerDevice
  | getPointerMemorySpace
  | getPointerAddressRange
  | getComputeCapability
  | getMultiprocessorCount
  | getMaxThreadsPerMultiprocessor
  | getMaxThreadsPerBlock
  | getMaxSharedMemoryPerCore
  | getMaxSharedMemoryPerBlock
  | getMaxRegistersPerBlock
  | getThreadsPerWarp
  | getGridLimits
  | getDeviceProperties
  | isEccEnabled
  | getDeviceTotalMemory
  | getDeviceMemoryInfo
  | getPCIBusID
  | getDeviceCount
  | getDriverVersion
  | getMaxOccupiedBlocksPerCore
  | currentContextOrDie
deriving DecidableEq, Fintype, Repr

/-- The declared C++ return type of each `ROCMDriver` member, read off the
header. -/
def returnKind : DriverOp → ReturnKind
  | .init => .status
  | .deviceFromContext => .statusOr
  | .createStream => .boolean
  | .destroyStream => .voidReturn
  | .createEvent => .status
  | .destroyEvent => .status
  | .deviceAllocate => .rawPointer
  | .deviceDeallocate => .voidReturn
  | .hostAllocate => .rawPointer
  | .hostDeallocate => .voidReturn
  | .hostRegister => .boolean
  | .hostUnregister => .boolean
  | .getDevice => .status
  | .getDeviceName => .boolean
  | .createContext => .status
  | .destroyContext => .voidReturn
  | .funcGetAttribute => .boolean
  | .funcSetCacheConfig => .boolean
  | .contextGetSharedMemConfig => .statusOr
  | .contextSetSharedMemConfig => .status
  | .launchKernel => .boolean
  | .loadPtx => .boolean
  | .loadCubin => .status
  | .getModuleFunction => .boolean
  | .getModuleSymbol => .boolean
  | .unloadModule => .voidReturn
  | .synchronousMemsetUint8 => .boolean
  | .synchronousMemsetUint32 => .boolean
  | .asynchronousMemsetUint8 => .boolean
  | .asynchronousMemsetUint32 => .boolean
  | .synchronousMemcpyD2H => .status
  | .synchronousMemcpyH2D => .status
  | .synchronousMemcpyD2D => .status
  | .asynchronousMemcpyD2H => .boolean
  | .asynchronousMemcpyH2D => .boolean
  | .asynchronousMemcpyD2D => .boolean
  | .addStreamCallback => .boolean
  | .waitStreamOnEvent => .boolean
  | .synchronizeStream => .boolean
  | .synchronizeContext => .boolean
  | .isStreamIdle => .boolean
  | .canEnablePeerAccess => .boolean
  | .enablePeerAccess => .status
  | .getEventElapsedTime => .boolean
  | .recordEvent => .status
  | .queryEvent => .statusOr
  | .getPointerContext => .statusOr
  | .getPointerDevice => .statusOr
  | .getPointerMemorySpace => .statusOr
  | .getPointerAddressRange => .status
  | .getComputeCapability => .status
  | .getMultiprocessorCount => .statusOr
  | .getMaxThreadsPerMultiprocessor => .statusOr
  | .getMaxThreadsPerBlock => .statusOr
  | .getMaxSharedMemoryPerCore => .statusOr
  | .getMaxSharedMemoryPerBlock => .statusOr
  | .getMaxRegistersPerBlock => .statusOr
  | .getThreadsPerWarp => .statusOr
  | .getGridLimits => .boolean
  | .getDeviceProperties => .boolean
  | .isEccEnabled => .boolean
  | .getDeviceTotalMemory => .boolean
  | .getDeviceMemoryInfo => .boolean
  | .getPCIBusID => .plainValue
  | .getDeviceCount => .plainValue
  | .getDriverVersion => .boolean
  | .getMaxOccupiedBlocksPerCore => .statusOr
  | .currentContextOrDie => .plainValue

/-- Whether the value carried by the member's return type is the raw
native `hipError_t` driver error code: only
`QueryEvent -> port::StatusOr<hipError_t>` carries one. -/
def payloadIsNativeErrorCode : DriverOp → Bool
  | .queryEvent => true
  | _ => false

/-- The members whose return type is not `Status`, `StatusOr` or `bool`:
the raw-pointer allocators, the `void` destroy/deallocate/unload calls,
and the plain-value queries. -/
def nonStatusReportingOps : List DriverOp :=
  [.deviceAllocate, .hostAllocate,
   .destroyStream, .deviceDeallocate, .hostDeallocate, .unloadModule,
   .destroyContext,
   .getPCIBusID, .getDeviceCount, .currentContextOrDie]

/-! ### The destroy operations and the caller's handle (C1)

`DestroyStream(ROCmContext*, hipStream_t* stream)` and
`DestroyEvent(ROCmContext*, hipEvent_t* event)` receive the address of the
caller's handle and, per the header contract, set `*stream` / `*event`
to null on success.  `DestroyContext(ROCmContext* context)` receives the
handle itself by value, so it cannot modify the caller's variable.
Modelled from the spec: the implementation unit is not part of the
excerpt; the nulling behavior of DestroyStream/DestroyEvent is taken from
the header's documented contract (header lines 78-82 and 95-98), and
DestroyContext's effect on the caller's variable follows from C++
by-value parameter passing of `ROCmContext*`. -/

/-- The three destroy operations named by the spec sentence. -/
inductive DestroyOp
  | destroyStream
  | destroyEvent
  | destroyContext
deriving DecidableEq, Repr

/-- Whether the operation's parameter list passes the address of the
caller's handle (`hipStream_t*` / `hipEvent_t*`) rather than the handle
value itself (`ROCmContext*`), read off the header signatures. -/
def receivesHandleAddress : DestroyOp → Bool
  | .destroyStream => true
  | .destroyEvent => true
  | .destroyContext => false

/-- The caller's handle variable (modelled as `Option Nat`, `none` being
the null sentinel) after a successful destroy call. -/
def callerHandleAfterDestroy : DestroyOp → Option Nat → Option Nat
  | .destroyStream, _ => none
  | .destroyEvent, _ => none
  | .destroyContext, h => h

/-! ### Context creation and ids (C3, C5)

Modelled from the spec: the `.cc` implementation of `CreateContext` is
not part of the excerpt.  The spec states that creation "assigns it the
next unused positive id" and that the persisted state is "the
process-wide next context id counter"; the header states that the id "is
positive, and ids are not repeated within the process". -/

/-- The process-wide context-creation state: the next id to hand out and
the ids of all contexts created so far, in creation order. -/
structure ContextRegistry where
  nextId : Int
  createdIds : List Int
deriving DecidableEq, Repr

/-- The process starts with no contexts created and next id 1. -/
def ContextRegistry.start : ContextRegistry := ⟨1, []⟩

/-- Modelled from the spec: `CreateContext` assigns the next unused
positive id and bumps the process-wide counter. -/
def createContextModel (s : ContextRegistry) : Int × ContextRegistry :=
  (s.nextId, ⟨s.nextId + 1, s.createdIds ++ [s.nextId]⟩)

/-- The registry after `n` successful context creations from process
start. -/
def registryAfter : Nat → ContextRegistry
  | 0 => ContextRegistry.start
  | n + 1 => (createContextModel (registryAfter n)).2

/-- Shallow embedding of `class ROCmContext`: a `hipCtx_t` handle plus an
id, both `const` members fixed at construction.  The header deletes the
copy constructor, move constructor, copy assignment and move
assignment. -/
structure ROCmContext where
  context_ : Nat
  id_ : Int
deriving DecidableEq, Repr

/-- The `context()` accessor. -/
def ROCmContext.context (c : ROCmContext) : Nat := c.context_

/-- The `id()` accessor. -/
def ROCmContext.id (c : ROCmContext) : Int := c.id_

/-- The four C++ special member functions that would duplicate or
reseat a `ROCmContext`. -/
inductive CtxSpecialMember
  | copyConstructor
  | moveConstructor
  | copyAssignment
  | moveAssignment
deriving DecidableEq, Repr

/-- Whether the header declares the special member as `= delete`; all
four are deleted (header lines 489-493). -/
def ctxSpecialMemberDeleted : CtxSpecialMember → Bool
  | .copyConstructor => true
  | .moveConstructor => true
  | .copyAssignment => true
  | .moveAssignment => true

/-! ### Scoped activation guard (C4)

Modelled from the spec: the guard's implementation is not part of the
excerpt.  Per the spec, constructing the guard with a context makes it
the calling thread's active context if it is not already active
(skipping the driver call when it is), records whatever context was
previously active in `to_restore_`, and destruction restores the
previous context.  The thread's active-context slot is `Option Nat`
(`none` meaning no active context). -/

/-- The guard object: the recorded previously-active context. -/
structure ScopedActivateContextModel where
  toRestore : Option Nat
deriving DecidableEq, Repr

/-- Constructing the guard: activates `ctx` via `hipCtxSetCurrent` only
when it is not already the current context, and records the previous
current context.  Returns the guard and the new active-context slot. -/
def scopedActivate (ctx : Nat) (current : Option Nat) :
    ScopedActivateContextModel × Option Nat :=
  if current = some ctx then
    (⟨current⟩, current)
  else
    (⟨current⟩, some ctx)

/-- Destroying the guard: restores the recorded previous context. -/
def scopedRestore (g : ScopedActivateContextModel) (_current : Option Nat) :
    Option Nat :=
  g.toRestore

/-! ### Driver initialization (C6)

Modelled from the spec: `Init`'s implementation is not part of the
excerpt.  Per the spec and the header comment, the first call does the
real driver initialization (which the process-wide
`driver_inject_init_error_` flag can force to fail, for testing) and its
outcome is cached; every later call returns the cached outcome without
doing work. -/

/-- Typed operation outcome, the embedding of `port::Status`. -/
inductive Status
  | ok
  | internalError
deriving DecidableEq, Repr

/-- Process-wide initialization state: the cached outcome of the first
`Init` (if any) and the fault-injection flag. -/
structure InitModelState where
  cachedOutcome : Option Status
  injectInitError : Bool
deriving DecidableEq, Repr

/-- Modelled from the spec: `Init` returns the cached outcome when one
exists; otherwise it performs the real initialization, which fails
exactly when `driver_inject_init_error_` is set, and caches the
outcome. -/
def initModel (s : InitModelState) : Status × InitModelState :=
  match s.cachedOutcome with
  | some st => (st, s)
  | none =>
      let st := if s.injectInitError then Status.internalError else Status.ok
      (st, { s with cachedOutcome := some st })

/-! ### Events, recording, querying, synchronization (C7)

Modelled from the spec: the implementations of `RecordEvent`,
`QueryEvent` and `SynchronizeStream` are not part of the excerpt.  Per
the spec, an event not yet recorded polls `Pending`; `RecordEvent` marks
the event at the stream's current submission position;
`SynchronizeStream` completes all work enqueued on the stream, after
which an event recorded on it polls `Complete`; `QueryEvent` polls
without blocking and yields pending, complete, or an error. -/

/-- Per-event state: the stream it was last recorded on (if any) and
whether the recorded point has completed. -/
structure EventState where
  recordedOn : Option Nat
  complete : Bool
deriving DecidableEq, Repr

/-- A freshly created event: never recorded, not complete. -/
def EventState.fresh : EventState := ⟨none, false⟩

/-- The stream/event operations relevant to event completion. -/
inductive StreamEventOp
  | recordEvent (e s : Nat)
  | synchronizeStream (s : Nat)
deriving DecidableEq, Repr

/-- One driver call's effect on the event table. -/
def stepEvent (st : Nat → EventState) : StreamEventOp → (Nat → EventState)
  | .recordEvent e s => fun e' => if e' = e then ⟨some s, false⟩ else st e'
  | .synchronizeStream s => fun e' =>
      if (st e').recordedOn = some s then ⟨(st e').recordedOn, true⟩ else st e'

/-- Running a sequence of driver calls on the event table. -/
def runStreamEventOps (ops : List StreamEventOp) (st : Nat → EventState) :
    Nat → EventState :=
  ops.foldl stepEvent st

/-- The result of polling an event, embedding
`port::StatusOr<hipError_t>` restricted to the documented outcomes. -/
inductive EventPollResult
  | pending
  | complete
  | pollError
deriving DecidableEq, Repr

/-- Modelled from the spec: `QueryEvent` polls, without blocking, whether
the event's recorded point has completed. -/
def queryEventModel (st : Nat → EventState) (e : Nat) : EventPollResult :=
  if (st e).complete then .complete else .pending

/-! ### Peer access (C8)

Modelled from the spec: the implementations are not part of the excerpt.
`CanEnablePeerAccess(from, to)` is a pure query of the device topology
(`hipDeviceCanAccessPeer`), and `EnablePeerAccess(from, to)` performs the
one-directional grant, which the native driver refuses when peer access
is not possible. -/

/-- Modelled from the spec: the pure capability query, parameterized by
the device topology `peerCapable`. -/
def canEnablePeerAccessModel (peerCapable : Nat → Nat → Bool)
    (a b : Nat) : Bool :=
  peerCapable a b

/-- Modelled from the spec: the grant succeeds exactly when the topology
permits it, and otherwise returns a failure `Status`. -/
def enablePeerAccessModel (peerCapable : Nat → Nat → Bool)
    (a b : Nat) : Status :=
  if peerCapable a b then Status.ok else Status.internalError

/-! ## Theorems -/

/-- C1 counterexample: `DestroyContext` receives the `ROCmContext*`
handle by value, so a successful call leaves the caller's (non-null)
copy of the handle unchanged rather than null. -/
theorem destroyContext_does_not_null_handle :
    ¬ callerHandleAfterDestroy DestroyOp.destroyContext (some 5) = none := by
  decide

/-- C1 (amended): a successful `DestroyStream` or `DestroyEvent` leaves
the caller's handle (`*stream` / `*event`) in the null sentinel state;
`DestroyContext`, which takes the `ROCmContext*` by value rather than
receiving the address of the caller's handle, leaves the caller's copy
unchanged. -/
theorem destroy_nulls_callers_handle (h : Option Nat) :
    callerHandleAfterDestroy DestroyOp.destroyStream h = none
    ∧ callerHandleAfterDestroy DestroyOp.destroyEvent h = none
    ∧ receivesHandleAddress DestroyOp.destroyStream = true
    ∧ receivesHandleAddress DestroyOp.destroyEvent = true
    ∧ receivesHandleAddress DestroyOp.destroyContext = false
    ∧ callerHandleAfterDestroy DestroyOp.destroyContext h = h := by
  refine ⟨rfl, rfl, rfl, rfl, rfl, rfl⟩

/-- C2 counterexample: `DeviceAllocate` returns a raw `void*`, not a
`Status`, `StatusOr`, or boolean success flag. -/
theorem deviceAllocate_reports_raw_pointer :
    ¬ (returnKind DriverOp.deviceAllocate = ReturnKind.status
       ∨ returnKind DriverOp.deviceAllocate = ReturnKind.statusOr
       ∨ returnKind DriverOp.deviceAllocate = ReturnKind.boolean) := by
  decide

/-- C2 (amended): every public `ROCMDriver` operation reports its
outcome as a typed `Status`, a `StatusOr`, or a boolean success flag,
except the raw-pointer allocators (`DeviceAllocate`, `HostAllocate`),
the `void`-returning destroy/deallocate/unload calls, and the
plain-value queries (`GetPCIBusID`, `GetDeviceCount`,
`CurrentContextOrDie`); and the one operation whose `StatusOr` payload
is the raw native `hipError_t` code is `QueryEvent`. -/
theorem driver_ops_report_typed_status (op : DriverOp)
    (hnot : op ∉ nonStatusReportingOps) :
    (returnKind op = ReturnKind.status ∨ returnKind op = ReturnKind.statusOr
      ∨ returnKind op = ReturnKind.boolean)
    ∧ (payloadIsNativeErrorCode op = true ↔ op = DriverOp.queryEvent) := by
  revert hnot
  revert op
  decide

/-- Witness for `driver_ops_report_typed_status` at `Init`. -/
theorem driver_ops_report_typed_status_witness :
    DriverOp.init ∉ nonStatusReportingOps
    ∧ (returnKind DriverOp.init = ReturnKind.status
       ∨ returnKind DriverOp.init = ReturnKind.statusOr
       ∨ returnKind DriverOp.init = ReturnKind.boolean) :=
  ⟨by decide, (driver_ops_report_typed_status DriverOp.init (by decide)).1⟩

/-- C4: constructing the guard leaves the target context active,
is a no-op on the active-context slot when the context is already
active, records the previously active context, and destruction restores
it, so a complete guard scope leaves the thread's active-context state
as it was. -/
theorem scoped_activate_guard_roundtrip (ctx : Nat) (current : Option Nat) :
    ((scopedActivate ctx current).2 = some ctx)
    ∧ (current = some ctx → (scopedActivate ctx current).2 = current)
    ∧ ((scopedActivate ctx current).1.toRestore = current)
    ∧ scopedRestore (scopedActivate ctx current).1 (scopedActivate ctx current).2
        = current := by
  unfold scopedActivate scopedRestore
  by_cases h : current = some ctx
  · simp [h]
  · simp [h]

/-- Witness for `scoped_activate_guard_roundtrip`: activating context 7
when it is already active leaves the slot unchanged. -/
theorem scoped_activate_guard_roundtrip_witness :
    (scopedActivate 7 (some 7)).2 = some 7
    ∧ scopedRestore (scopedActivate 7 (some 7)).1 (scopedActivate 7 (some 7)).2
        = some 7 :=
  ⟨(scoped_activate_guard_roundtrip 7 (some 7)).2.1 rfl,
   (scoped_activate_guard_roundtrip 7 (some 7)).2.2.2⟩

/-- C6: the first `Init` call does the real initialization, failing
exactly when the fault-injection flag is set; every call caches its
outcome; and a call on a cached state returns the cached outcome and
leaves the state untouched, so all subsequent calls are no-ops with the
same outcome. -/
theorem init_idempotent (b : Bool) (s : InitModelState) (st : Status)
    (hcached : s.cachedOutcome = some st) :
    ((initModel ⟨none, b⟩).1
      = if b then Status.internalError else Status.ok)
    ∧ ((initModel ⟨none, b⟩).2.cachedOutcome = some (initModel ⟨none, b⟩).1)
    ∧ initModel s = (st, s) := by
  refine ⟨?_, ?_, ?_⟩
  · cases b <;> rfl
  · cases b <;> rfl
  · unfold initModel
    rw [hcached]

/-- Witness for `init_idempotent`: a second call after a successful
first call returns `ok` and changes nothing. -/
theorem init_idempotent_witness :
    (InitModelState.mk (some Status.ok) false).cachedOutcome = some Status.ok
    ∧ initModel ⟨some Status.ok, false⟩ = (Status.ok, ⟨some Status.ok, false⟩) :=
  ⟨rfl, (init_idempotent false ⟨some Status.ok, false⟩ Status.ok rfl).2.2⟩

/-- C8: when `CanEnablePeerAccess` answers `false`, `EnablePeerAccess`
returns a failure `Status`, never a silent success. -/
theorem cannot_enable_peer_access_fails (peerCapable : Nat → Nat → Bool)
    (a b : Nat) (h : canEnablePeerAccessModel peerCapable a b = false) :
    enablePeerAccessModel peerCapable a b = Status.internalError
    ∧ enablePeerAccessModel peerCapable a b ≠ Status.ok := by
  unfold canEnablePeerAccessModel at h
  unfold enablePeerAccessModel
  rw [h]
  exact ⟨rfl, by decide⟩

/-- Witness for `cannot_enable_peer_access_fails` on a topology with no
peer capability. -/
theorem cannot_enable_peer_access_fails_witness :
    canEnablePeerAccessModel (fun _ _ => false) 0 1 = false
    ∧ enablePeerAccessModel (fun _ _ => false) 0 1 = Status.internalError :=
  ⟨rfl, (cannot_enable_peer_access_fails (fun _ _ => false) 0 1 rfl).1⟩

/-- After `n` creations the next id is `n + 1`. -/
theorem registryAfter_nextId (n : Nat) : (registryAfter n).nextId = n + 1 := by
  induction n with
  | zero => rfl
  | succ n ih =>
      show (createContextModel (registryAfter n)).2.nextId = n + 1 + 1
      unfold createContextModel
      simp [ih]

/-- The ids created after `n` creations are `1, 2, ..., n` in order. -/
theorem registryAfter_createdIds (n : Nat) :
    (registryAfter n).createdIds
      = (List.range n).map (fun i : Nat => (i : Int) + 1) := by
  induction n with
  | zero => rfl
  | succ n ih =>
      show (createContextModel (registryAfter n)).2.createdIds = _
      unfold createContextModel
      simp only [List.range_succ, List.map_append, List.map_cons, List.map_nil]
      rw [ih, registryAfter_nextId]

/-- The created ids are pairwise strictly increasing in creation
order. -/
theorem createdIds_pairwise_lt (n : Nat) :
    ((registryAfter n).createdIds).Pairwise (· < ·) := by
  rw [registryAfter_createdIds]
  exact List.Pairwise.map (fun i : Nat => (i : Int) + 1)
    (fun a b hab => by
      show ((a : Int) + 1 < (b : Int) + 1)
      exact_mod_cast Nat.add_lt_add_right hab 1)
    (List.pairwise_lt_range n)

/-- C3: after any number of context creations, every created id is
strictly positive, and the ids are strictly increasing in creation
order — hence each new context's id exceeds the id of every previously
created context and no id is ever reused. -/
theorem context_ids_positive_increasing_never_reused (n : Nat) :
    (∀ id ∈ (registryAfter n).createdIds, 0 < id)
    ∧ ((registryAfter n).createdIds).Pairwise (· < ·) := by
  refine ⟨?_, createdIds_pairwise_lt n⟩
  intro id hid
  rw [registryAfter_createdIds] at hid
  obtain ⟨i, _, rfl⟩ := List.mem_map.mp hid
  show (0 : Int) < (i : Int) + 1
  have h0 : (0 : Int) ≤ (i : Int) := Int.natCast_nonneg i
  omega

/-- Witness for `context_ids_positive_increasing_never_reused`: the
first id created is 1 and it is positive. -/
theorem context_ids_positive_witness :
    (1 : Int) ∈ (registryAfter 3).createdIds ∧ (0 : Int) < 1 :=
  ⟨by decide, (context_ids_positive_increasing_never_reused 3).1 1 (by decide)⟩

/-- C5: `ROCmContext` deletes all four copy/move special members; its
`context()` and `id()` accessors return exactly the construction-time
values (both members are `const`, fixed at construction); and context
creation never produces two contexts with the same id. -/
theorem rocm_context_unique_identity :
    (∀ m, ctxSpecialMemberDeleted m = true)
    ∧ (∀ h i, (ROCmContext.mk h i).context = h ∧ (ROCmContext.mk h i).id = i)
    ∧ (∀ n, ((registryAfter n).createdIds).Nodup) := by
  refine ⟨?_, ?_, ?_⟩
  · intro m
    cases m <;> rfl
  · intro h i
    exact ⟨rfl, rfl⟩
  · intro n
    exact (createdIds_pairwise_lt n).imp ne_of_lt

/-- Witness for `rocm_context_unique_identity` at concrete values. -/
theorem rocm_context_unique_identity_witness :
    ctxSpecialMemberDeleted CtxSpecialMember.copyConstructor = true
    ∧ (ROCmContext.mk 7 5).id = 5
    ∧ ((registryAfter 2).createdIds).Nodup :=
  ⟨rocm_context_unique_identity.1 CtxSpecialMember.copyConstructor,
   (rocm_context_unique_identity.2.1 7 5).2,
   rocm_context_unique_identity.2.2 2⟩

/-- Event-table invariant: a sequence of calls containing no
`RecordEvent` on `e` leaves event `e` in its fresh state. -/
theorem runStreamEventOps_fresh (ops : List StreamEventOp) (e : Nat)
    (hno : ∀ s, StreamEventOp.recordEvent e s ∉ ops)
    (st : Nat → EventState) (hst : st e = EventState.fresh) :
    runStreamEventOps ops st e = EventState.fresh := by
  induction ops generalizing st with
  | nil => exact hst
  | cons op rest ih =>
      show runStreamEventOps rest (stepEvent st op) e = EventState.fresh
      refine ih (fun s hs => hno s (List.mem_cons_of_mem _ hs)) _ ?_
      cases op with
      | recordEvent e' s =>
          have hne : e ≠ e' := by
            intro hh
            exact hno s (by rw [hh]; exact List.mem_cons_self _ _)
          simp [stepEvent, hne, hst]
      | synchronizeStream s =>
          simp [stepEvent, hst, EventState.fresh]

/-- C7: `QueryEvent` is a non-blocking poll yielding pending, complete,
or an error; an event on which no `RecordEvent` was ever issued polls
`Pending` (never `Complete`) after any such call sequence; and after
`SynchronizeStream` on the stream an event was recorded on, the event
polls `Complete`. -/
theorem query_event_pending_then_complete :
    (∀ st e, queryEventModel st e = EventPollResult.pending
      ∨ queryEventModel st e = EventPollResult.complete
      ∨ queryEventModel st e = EventPollResult.pollError)
    ∧ (∀ ops e, (∀ s, StreamEventOp.recordEvent e s ∉ ops) →
        queryEventModel (runStreamEventOps ops (fun _ => EventState.fresh)) e
          = EventPollResult.pending)
    ∧ (∀ st e s, (st e).recordedOn = some s →
        queryEventModel (stepEvent st (StreamEventOp.synchronizeStream s)) e
          = EventPollResult.complete) := by
  refine ⟨?_, ?_, ?_⟩
  · intro st e
    unfold queryEventModel
    by_cases h : (st e).complete
    · right; left; simp [h]
    · left; simp [h]
  · intro ops e hno
    have h := runStreamEventOps_fresh ops e hno (fun _ => EventState.fresh) rfl
    unfold queryEventModel
    rw [h]
    rfl
  · intro st e s hrec
    simp [queryEventModel, stepEvent, hrec]

/-- Witness for `query_event_pending_then_complete`: a never-recorded
event still polls `Pending` after an unrelated stream synchronization,
and an event recorded on stream 0 polls `Complete` right after
synchronizing stream 0. -/
theorem query_event_pending_then_complete_witness :
    queryEventModel
      (runStreamEventOps [StreamEventOp.synchronizeStream 0]
        (fun _ => EventState.fresh)) 0 = EventPollResult.pending
    ∧ queryEventModel
        (stepEvent (fun _ => EventState.mk (some 0) false)
          (StreamEventOp.synchronizeStream 0)) 0 = EventPollResult.complete :=
  ⟨query_event_pending_then_complete.2.1 [StreamEventOp.synchronizeStream 0] 0
      (by intro s; simp),
   query_event_pending_then_complete.2.2 (fun _ => EventState.mk (some 0) false)
      0 0 rfl⟩

/-- Euclidean uniqueness helper: dividing `a * n + r` by `n` recovers
`a` when `r < n`. -/
theorem div_mul_add (n a r : Nat) (hr : r < n) : (a * n + r) / n = a := by
  have hn : 0 < n := lt_of_le_of_lt (Nat.zero_le r) hr
  rw [Nat.mul_comm a n, Nat.mul_add_div hn, Nat.div_eq_of_lt hr, Nat.add_zero]

/-- Euclidean uniqueness helper: `a * n + r` mod `n` recovers `r` when
`r < n`. -/
theorem mod_mul_add (n a r : Nat) (hr : r < n) : (a * n + r) % n = r := by
  rw [Nat.mul_comm a n, Nat.mul_add_mod, Nat.mod_eq_of_lt hr]

/-- One kernel iteration, expressed through `writeTarget`: the output
cell `k` gains `input inputIndex` exactly when the iteration targets
`k`. -/
theorem step_apply (innerDimSize outputOuterDimSize : Nat)
    (segmentIds : Nat → Int) (input output : Nat → Int) (inputIndex k : Nat) :
    UnsortedSegmentSumCustomKernelStep innerDimSize outputOuterDimSize
      segmentIds input output inputIndex k
    = output k
      + (if writeTarget innerDimSize outputOuterDimSize segmentIds inputIndex
            = some k then input inputIndex else 0) := by
  unfold UnsortedSegmentSumCustomKernelStep writeTarget
  by_cases hg : segmentIds (inputIndex / innerDimSize) < 0
      ∨ ((outputOuterDimSize * innerDimSize : Nat) : Int)
          ≤ segmentIds (inputIndex / innerDimSize)
  · rw [if_pos hg, if_pos hg]
    simp
  · simp only [if_neg hg]
    by_cases hk : k = (segmentIds (inputIndex / innerDimSize)).toNat
        * innerDimSize + inputIndex % innerDimSize
    · subst hk
      simp
    · simp only [if_neg hk, Option.some.injEq]
      rw [if_neg (fun h => hk h.symm), add_zero]

/-- The kernel's fold over the first `n` input indices: each output
cell holds its initial value plus the sum of the inputs whose iteration
targets it. -/
theorem kernel_foldl_apply (innerDimSize outputOuterDimSize : Nat)
    (segmentIds : Nat → Int) (input : Nat → Int) (output : Nat → Int)
    (n k : Nat) :
    ((List.range n).foldl
      (UnsortedSegmentSumCustomKernelStep innerDimSize outputOuterDimSize
        segmentIds input) output) k
    = output k + ∑ ii ∈ Finset.range n,
        (if writeTarget innerDimSize outputOuterDimSize segmentIds ii = some k
         then input ii else 0) := by
  induction n with
  | zero => simp
  | succ n ih =>
      rw [List.range_succ, List.foldl_append, List.foldl_cons, List.foldl_nil,
        step_apply, ih, Finset.sum_range_succ, add_assoc]

/-- Characterization of the kernel's write target: iteration
`inputIndex` writes to the in-range cell `(s, j)` (flattened as
`s * innerDimSize + j`) exactly when the element's segment id is `s`
and its inner offset is `j`. -/
theorem writeTarget_eq_some (innerDimSize outputOuterDimSize : Nat)
    (segmentIds : Nat → Int) (inputIndex s j : Nat)
    (hs : s < outputOuterDimSize) (hj : j < innerDimSize) :
    (writeTarget innerDimSize outputOuterDimSize segmentIds inputIndex
        = some (s * innerDimSize + j))
    ↔ (segmentIds (inputIndex / innerDimSize) = (s : Int)
        ∧ inputIndex % innerDimSize = j) := by
  have hinner : 0 < innerDimSize := lt_of_le_of_lt (Nat.zero_le j) hj
  unfold writeTarget
  by_cases hg : segmentIds (inputIndex / innerDimSize) < 0
      ∨ ((outputOuterDimSize * innerDimSize : Nat) : Int)
          ≤ segmentIds (inputIndex / innerDimSize)
  · simp only [if_pos hg]
    constructor
    · intro h
      cases h
    · rintro ⟨hid, -⟩
      exfalso
      rcases hg with h1 | h2
      · rw [hid] at h1
        have := Int.natCast_nonneg s
        omega
      · rw [hid] at h2
        have h2' : outputOuterDimSize * innerDimSize ≤ s := by exact_mod_cast h2
        have hle : outputOuterDimSize ≤ outputOuterDimSize * innerDimSize :=
          Nat.le_mul_of_pos_right _ hinner
        omega
  · simp only [if_neg hg, Option.some.injEq]
    push_neg at hg
    obtain ⟨hge, hlt⟩ := hg
    constructor
    · intro heq
      have hmodlt : inputIndex % innerDimSize < innerDimSize :=
        Nat.mod_lt _ hinner
      have ht : (segmentIds (inputIndex / innerDimSize)).toNat = s := by
        have h1 := div_mul_add innerDimSize
          (segmentIds (inputIndex / innerDimSize)).toNat
          (inputIndex % innerDimSize) hmodlt
        have h2 := div_mul_add innerDimSize s j hj
        rw [← h1, heq, h2]
      have hr : inputIndex % innerDimSize = j := by
        have h1 := mod_mul_add innerDimSize
          (segmentIds (inputIndex / innerDimSize)).toNat
          (inputIndex % innerDimSize) hmodlt
        have h2 := mod_mul_add innerDimSize s j hj
        rw [← h1, heq, h2]
      refine ⟨?_, hr⟩
      rw [← Int.toNat_of_nonneg hge, ht]
    · rintro ⟨hid, hmod⟩
      rw [hid, hmod]
      simp

/-- C10: an input element whose segment id is negative or at least
`output_outer_dim_size * inner_dim_size` is skipped by the kernel guard
and leaves the output untouched; and every accumulation actually
performed on an element whose segment id is below
`output_outer_dim_size` writes to an output index strictly below
`output_outer_dim_size * inner_dim_size`. -/
theorem kernel_skips_oob_and_writes_in_bounds (innerDimSize
    outputOuterDimSize : Nat) (segmentIds : Nat → Int)
    (input output : Nat → Int) (inputIndex : Nat) :
    ((segmentIds (inputIndex / innerDimSize) < 0
        ∨ ((outputOuterDimSize * innerDimSize : Nat) : Int)
            ≤ segmentIds (inputIndex / innerDimSize)) →
      UnsortedSegmentSumCustomKernelStep innerDimSize outputOuterDimSize
        segmentIds input output inputIndex = output)
    ∧ (∀ k, writeTarget innerDimSize outputOuterDimSize segmentIds inputIndex
          = some k →
        segmentIds (inputIndex / innerDimSize) < (outputOuterDimSize : Int) →
        k < outputOuterDimSize * innerDimSize) := by
  constructor
  · intro hg
    unfold UnsortedSegmentSumCustomKernelStep
    rw [if_pos hg]
  · intro k hk hbound
    unfold writeTarget at hk
    by_cases hg : segmentIds (inputIndex / innerDimSize) < 0
        ∨ ((outputOuterDimSize * innerDimSize : Nat) : Int)
            ≤ segmentIds (inputIndex / innerDimSize)
    · rw [if_pos hg] at hk
      cases hk
    · rw [if_neg hg] at hk
      push_neg at hg
      obtain ⟨hge, hlt⟩ := hg
      have hinner : 0 < innerDimSize := by
        rcases Nat.eq_zero_or_pos innerDimSize with h0 | h
        · exfalso
          subst h0
          rw [Nat.mul_zero] at hlt
          simp only [Nat.cast_zero] at hlt
          omega
        · exact h
      have htop : (segmentIds (inputIndex / innerDimSize)).toNat
          < outputOuterDimSize := by
        have := Int.toNat_of_nonneg hge
        omega
      have hmodlt : inputIndex % innerDimSize < innerDimSize :=
        Nat.mod_lt _ hinner
      have hkk : k = (segmentIds (inputIndex / innerDimSize)).toNat
          * innerDimSize + inputIndex % innerDimSize :=
        (Option.some.inj hk).symm
      subst hkk
      calc (segmentIds (inputIndex / innerDimSize)).toNat * innerDimSize
            + inputIndex % innerDimSize
          < (segmentIds (inputIndex / innerDimSize)).toNat * innerDimSize
            + innerDimSize := Nat.add_lt_add_left hmodlt _
        _ = ((segmentIds (inputIndex / innerDimSize)).toNat + 1)
            * innerDimSize := by ring
        _ ≤ outputOuterDimSize * innerDimSize :=
            Nat.mul_le_mul_right _ (Nat.succ_le_of_lt htop)

/-- Witness for `kernel_skips_oob_and_writes_in_bounds`: an element with
segment id `-1` is skipped outright. -/
theorem kernel_skips_oob_witness :
    UnsortedSegmentSumCustomKernelStep 2 3 (fun _ => (-1 : Int))
      (fun _ => 5) (fun _ => 0) 0 = (fun _ => 0) :=
  (kernel_skips_oob_and_writes_in_bounds 2 3 (fun _ => (-1 : Int))
    (fun _ => 5) (fun _ => 0) 0).1 (Or.inl (by decide))

/-- Reindexing the kernel's accumulation sum for the in-range output
cell `(s, j)`: the inputs accumulated there are exactly the rows whose
segment id is `s`, each contributing its column-`j` element. -/
theorem kernel_sum_reindex (numIds innerDim outputRows : Nat)
    (segmentIds : Nat → Int) (data : Nat → Int) (s j : Nat)
    (hs : s < outputRows) (hj : j < innerDim) :
    (∑ ii ∈ Finset.range (numIds * innerDim),
      (if writeTarget innerDim outputRows segmentIds ii
          = some (s * innerDim + j) then data ii else 0))
    = ∑ i ∈ (Finset.range numIds).filter
        (fun i => segmentIds i = (s : Int)), data (i * innerDim + j) := by
  rw [← Finset.sum_filter]
  refine (Finset.sum_nbij' (fun ii => ii / innerDim)
    (fun i => i * innerDim + j) ?_ ?_ ?_ ?_ ?_)
  · intro ii hii
    rw [Finset.mem_filter, Finset.mem_range] at hii
    obtain ⟨hrange, htgt⟩ := hii
    rw [writeTarget_eq_some innerDim outputRows segmentIds ii s j hs hj] at htgt
    rw [Finset.mem_filter, Finset.mem_range]
    exact ⟨Nat.div_lt_of_lt_mul (Nat.mul_comm numIds innerDim ▸ hrange),
      htgt.1⟩
  · intro i hi
    rw [Finset.mem_filter, Finset.mem_range] at hi
    obtain ⟨hrange, hid⟩ := hi
    rw [Finset.mem_filter, Finset.mem_range]
    have hlt : i * innerDim + j < numIds * innerDim := by
      calc i * innerDim + j < i * innerDim + innerDim :=
            Nat.add_lt_add_left hj _
        _ = (i + 1) * innerDim := by ring
        _ ≤ numIds * innerDim :=
            Nat.mul_le_mul_right _ (Nat.succ_le_of_lt hrange)
    refine ⟨hlt, ?_⟩
    rw [writeTarget_eq_some innerDim outputRows segmentIds _ s j hs hj]
    rw [div_mul_add innerDim i j hj, mod_mul_add innerDim i j hj]
    exact ⟨hid, rfl⟩
  · intro ii hii
    rw [Finset.mem_filter, Finset.mem_range] at hii
    obtain ⟨hrange, htgt⟩ := hii
    rw [writeTarget_eq_some innerDim outputRows segmentIds ii s j hs hj] at htgt
    show ii / innerDim * innerDim + j = ii
    rw [← htgt.2, Nat.mul_comm]
    exact Nat.div_add_mod ii innerDim
  · intro i hi
    exact div_mul_add innerDim i j hj
  · intro ii hii
    rw [Finset.mem_filter, Finset.mem_range] at hii
    obtain ⟨hrange, htgt⟩ := hii
    rw [writeTarget_eq_some innerDim outputRows segmentIds ii s j hs hj] at htgt
    have heq : ii / innerDim * innerDim + j = ii := by
      rw [← htgt.2, Nat.mul_comm]
      exact Nat.div_add_mod ii innerDim
    show data ii = data (ii / innerDim * innerDim + j)
    rw [heq]

/-- C9: with every segment id in `[0, output_rows)` and the shapes
consistent (`data_size = numIds * innerDim`,
`output.size = output_rows * innerDim`), the functor leaves the output
untouched when it has no elements, zeroes every output element when
there is no data or no segment ids, and otherwise stores in each output
cell `(s, j)` the sum of `data[i * innerDim + j]` over exactly the rows
`i` with `segment_ids[i] = s` (zero when no such row exists, since the
sum over an empty set is zero). -/
theorem unsorted_segment_sum_functor_correct (outputRows numIds innerDim
    dataSize outputSize : Nat) (segmentIds : Nat → Int)
    (data output : Nat → Int) :
    (outputSize = 0 →
      UnsortedSegmentSumFunctor outputRows numIds segmentIds dataSize data
        outputSize output = output)
    ∧ ((dataSize = 0 ∨ numIds = 0) → ∀ k, k < outputSize →
      UnsortedSegmentSumFunctor outputRows numIds segmentIds dataSize data
        outputSize output k = 0)
    ∧ (dataSize = numIds * innerDim → outputSize = outputRows * innerDim →
      (∀ i, i < numIds → 0 ≤ segmentIds i ∧ segmentIds i < (outputRows : Int)) →
      ∀ s, s < outputRows → ∀ j, j < innerDim →
        UnsortedSegmentSumFunctor outputRows numIds segmentIds dataSize data
          outputSize output (s * innerDim + j)
        = ∑ i ∈ (Finset.range numIds).filter
            (fun i => segmentIds i = (s : Int)), data (i * innerDim + j)) := by
  refine ⟨?_, ?_, ?_⟩
  · intro h0
    unfold UnsortedSegmentSumFunctor
    rw [if_pos h0]
  · intro hempty k hk
    have hout : outputSize ≠ 0 := by omega
    unfold UnsortedSegmentSumFunctor
    rw [if_neg hout]
    simp only [if_pos hempty]
    unfold SetZero
    rw [if_pos hk]
  · intro hd houts hids s hs j hj
    have hinner : 0 < innerDim := lt_of_le_of_lt (Nat.zero_le j) hj
    have hkidx : s * innerDim + j < outputRows * innerDim := by
      calc s * innerDim + j < s * innerDim + innerDim :=
            Nat.add_lt_add_left hj _
        _ = (s + 1) * innerDim := by ring
        _ ≤ outputRows * innerDim :=
            Nat.mul_le_mul_right _ (Nat.succ_le_of_lt hs)
    have hout : outputSize ≠ 0 := by
      rw [houts]
      have : 0 < outputRows * innerDim := lt_of_le_of_lt (Nat.zero_le _) hkidx
      omega
    by_cases hn : numIds = 0
    · have hdz : dataSize = 0 := by rw [hd, hn, Nat.zero_mul]
      unfold UnsortedSegmentSumFunctor
      rw [if_neg hout]
      simp only [if_pos (Or.inl hdz)]
      unfold SetZero
      rw [if_pos (by rw [houts]; exact hkidx)]
      rw [hn]
      simp
    · have hdpos : dataSize ≠ 0 := by
        rw [hd]
        exact Nat.mul_ne_zero hn (by omega)
      have hnor : ¬(dataSize = 0 ∨ numIds = 0) := by
        push_neg
        exact ⟨hdpos, hn⟩
      have hdiv : dataSize / numIds = innerDim := by
        rw [hd]
        exact Nat.mul_div_cancel_left innerDim (Nat.pos_of_ne_zero hn)
      unfold UnsortedSegmentSumFunctor
      rw [if_neg hout]
      simp only [if_neg hnor, hdiv]
      unfold UnsortedSegmentSumCustomKernel
      rw [kernel_foldl_apply]
      have hzero : SetZero outputSize output (s * innerDim + j) = 0 := by
        unfold SetZero
        rw [if_pos (by rw [houts]; exact hkidx)]
      rw [hzero, zero_add]
      exact kernel_sum_reindex numIds innerDim outputRows segmentIds data s j
        hs hj

/-- Witness for `unsorted_segment_sum_functor_correct` on the concrete
instance with three input rows of width 2, ids `[0, 1, 0]`, and two
output rows: cell `(0, 0)` holds `data[0] + data[4] = 0 + 4`. -/
theorem unsorted_segment_sum_functor_correct_witness :
    UnsortedSegmentSumFunctor 2 3 (fun i => if i = 1 then 1 else 0) 6
      (fun i => (i : Int)) 4 (fun _ => 7) (0 * 2 + 0) = 4 := by
  have h := (unsorted_segment_sum_functor_correct 2 3 2 6 4
    (fun i => if i = 1 then 1 else 0) (fun i => (i : Int)) (fun _ => 7)).2.2
    rfl rfl (by decide) 0 (by decide) 0 (by decide)
  rw [h]
  decide

end TensorflowRocm
